import Mathlib

/-!
Shallow embedding of `src/prompt_toolkit/styles/style.py` (the cascade style
resolver of this repository) and proofs about it.

Python strings are modelled as Lean `String`s, but every string operation the
source uses (`split`, `lower`, slicing, `in`, `startswith`, `endswith`,
`split(',')`, `sorted`) is re-implemented structurally over `List Char` so the
kernel can evaluate all definitions.  Python `None` in an `Attrs` field is
`Option.none`; raised exceptions are `Except.error`.
-/

namespace PromptToolkitStyle

/-- Errors the style machinery can raise.  `invalidColorFormat` models the
`ValueError('Wrong color format %r')` in `_colorformat`; `unexpectedClassReference`
models the `assert not class_names_2` failure in `Style.__init__` (the spec names
this failure `UnexpectedClassReference`). -/
inductive StyleErr where
  | invalidColorFormat
  | unexpectedClassReference
deriving DecidableEq

/-- The `Attrs` namedtuple from `base.py`: seven visual-attribute fields.  A
`none` field is Python `None` ("take the value from the parent"). -/
structure Attrs where
  color : Option String
  bgcolor : Option String
  bold : Option Bool
  underline : Option Bool
  italic : Option Bool
  blink : Option Bool
  reverse : Option Bool
deriving DecidableEq

/-- `_EMPTY_ATTRS` from `style.py` line 36: all fields `None`. -/
def _EMPTY_ATTRS : Attrs :=
  { color := none, bgcolor := none, bold := none, underline := none,
    italic := none, blink := none, reverse := none }

/-- Modelled from the spec: `DEFAULT_ATTRS` lives in `base.py`, which is not in
the source tree.  Per the spec, the `noinherit` start state and the default
query layer have "all fields explicitly false/empty": colors are the empty
string and all five booleans are `false`. -/
def DEFAULT_ATTRS : Attrs :=
  { color := some "", bgcolor := some "", bold := some false,
    underline := some false, italic := some false, blink := some false,
    reverse := some false }

/-- Modelled from the spec: `ANSI_COLOR_NAMES` lives in `base.py`, which is not
in the source tree.  The spec and the source docstring describe it as a fixed
palette of symbolic names for the 16-color ANSI palette.  The claims settled
against it depend only on membership of specific strings such as "12", "f80"
and "zzzzzz", which are not named colors under any reading of the spec. -/
def ANSI_COLOR_NAMES : List String :=
  ["ansidefault",
   "ansiblack", "ansired", "ansigreen", "ansiyellow",
   "ansiblue", "ansimagenta", "ansicyan", "ansigray",
   "ansibrightblack", "ansibrightred", "ansibrightgreen", "ansibrightyellow",
   "ansibrightblue", "ansibrightmagenta", "ansibrightcyan", "ansiwhite"]

/-! ## Python string primitives over `List Char` -/

/-- `leadsWith needle hay`: `hay` begins with `needle` (Python `startswith`). -/
def leadsWith : List Char → List Char → Bool
  | [], _ => true
  | _ :: _, [] => false
  | a :: as, b :: bs => a = b && leadsWith as bs

/-- `hasSub needle hay`: `needle` occurs as a contiguous run in `hay`
(Python's `needle in hay` on strings). -/
def hasSub (needle : List Char) : List Char → Bool
  | [] => leadsWith needle []
  | c :: rest => leadsWith needle (c :: rest) || hasSub needle rest

/-- Python `needle in hay` for strings. -/
def strIn (needle hay : String) : Bool :=
  hasSub needle.data hay.data

/-- Python `s.startswith(pre)`. -/
def pyStarts (pre s : String) : Bool :=
  leadsWith pre.data s.data

/-- Python `s.endswith(suf)`. -/
def pyEnds (suf s : String) : Bool :=
  leadsWith suf.data.reverse s.data.reverse

/-- Python `s.lower()` (ASCII case folding, all the claims use ASCII). -/
def pyLower (s : String) : String :=
  ⟨s.data.map Char.toLower⟩

/-- Python `s[n:]` (slicing by code points). -/
def pyDrop (n : Nat) (s : String) : String :=
  ⟨s.data.drop n⟩

/-- Python `s[0:1]`. -/
def pyTake1 (s : String) : String :=
  ⟨s.data.take 1⟩

/-- Helper for `pySplit`: accumulates the current word (reversed). -/
def wordsAux : List Char → List Char → List String
  | [], cur => if cur.isEmpty then [] else [⟨cur.reverse⟩]
  | c :: rest, cur =>
    if c.isWhitespace then
      if cur.isEmpty then wordsAux rest [] else ⟨cur.reverse⟩ :: wordsAux rest []
    else wordsAux rest (c :: cur)

/-- Python `s.split()`: split on runs of whitespace, dropping empty pieces. -/
def pySplit (s : String) : List String :=
  wordsAux s.data []

/-- Helper for `pySplitComma`. -/
def splitCommaAux : List Char → List Char → List String
  | [], cur => [⟨cur.reverse⟩]
  | c :: rest, cur =>
    if c = ',' then ⟨cur.reverse⟩ :: splitCommaAux rest []
    else splitCommaAux rest (c :: cur)

/-- Python `s.split(',')`: keeps empty pieces (`''.split(',') == ['']`). -/
def pySplitComma (s : String) : List String :=
  splitCommaAux s.data []

/-- Lexicographic code-point comparison on char lists (Python `x <= y`). -/
def strLeChars : List Char → List Char → Bool
  | [], _ => true
  | _ :: _, [] => false
  | a :: as, b :: bs => if a < b then true else if b < a then false else strLeChars as bs

/-- Python `x <= y` on strings. -/
def pyStrLe (x y : String) : Bool :=
  strLeChars x.data y.data

/-- Insert a string into an already-sorted list (ascending). -/
def pyInsert (x : String) : List String → List String
  | [] => [x]
  | y :: ys => if pyStrLe x y then x :: y :: ys else y :: pyInsert x ys

/-- Python `sorted` on a list of strings (equal strings are indistinguishable,
so insertion sort returns the same value as Python's stable mergesort). -/
def pySorted : List String → List String
  | [] => []
  | x :: xs => pyInsert x (pySorted xs)

/-! ## `_colorformat` (style.py lines 13-31) -/

/-- The `len(col) == 3` arm of `_colorformat`: when the remainder has exactly
three characters, double each one in place (`col[0]*2 + col[1]*2 + col[2]*2`);
any other shape reaching this point falls through to the `ValueError`. -/
def dupThree : List Char → Except StyleErr String
  | [a, b, c] => .ok ⟨[a, a, b, b, c, c]⟩
  | _ => .error .invalidColorFormat

/-- `_colorformat(text)`: parse/validate a color spec.  Mirrors the source: a
leading `#` selects palette-name / 6-char / 3-char handling (the 3-char form
doubles each character in place); otherwise only `''` and `'default'` are
accepted; everything else raises `ValueError` (modelled `invalidColorFormat`). -/
def _colorformat (text : String) : Except StyleErr String :=
  if pyTake1 text = "#" then
    let col := pyDrop 1 text
    if col ∈ ANSI_COLOR_NAMES then .ok col
    else if col.data.length = 6 then .ok col
    else dupThree col.data
  else if text = "" ∨ text = "default" then .ok text
  else .error .invalidColorFormat

/-! ## `_parse_style_str` (style.py lines 39-100) -/

/-- One iteration of the token loop in `_parse_style_str`: the if/elif chain on
a single whitespace-separated part, in source order. -/
def applyStylePart (attrs : Attrs) (class_names : List String) (part : String) :
    Except StyleErr (Attrs × List String) :=
  if part = "noinherit" then .ok (attrs, class_names)
  else if part = "bold" then .ok ({ attrs with bold := some true }, class_names)
  else if part = "nobold" then .ok ({ attrs with bold := some false }, class_names)
  else if part = "italic" then .ok ({ attrs with italic := some true }, class_names)
  else if part = "noitalic" then .ok ({ attrs with italic := some false }, class_names)
  else if part = "underline" then .ok ({ attrs with underline := some true }, class_names)
  else if part = "nounderline" then .ok ({ attrs with underline := some false }, class_names)
  else if part = "blink" then .ok ({ attrs with blink := some true }, class_names)
  else if part = "noblink" then .ok ({ attrs with blink := some false }, class_names)
  else if part = "reverse" then .ok ({ attrs with reverse := some true }, class_names)
  else if part = "noreverse" then .ok ({ attrs with reverse := some false }, class_names)
  else if part = "roman" ∨ part = "sans" ∨ part = "mono" then .ok (attrs, class_names)
  else if pyStarts "border:" part then .ok (attrs, class_names)
  else if pyStarts "class:" part then
    .ok (attrs, class_names ++ pySplitComma (pyLower (pyDrop 6 part)))
  else if pyStarts "[" part ∧ pyEnds "]" part then .ok (attrs, class_names)
  else if pyStarts "bg:" part then
    match _colorformat (pyDrop 3 part) with
    | .error e => .error e
    | .ok c => .ok ({ attrs with bgcolor := some c }, class_names)
  else
    match _colorformat part with
    | .error e => .error e
    | .ok c => .ok ({ attrs with color := some c }, class_names)

/-- The token loop of `_parse_style_str`, over the whitespace-split parts. -/
def applyParts (acc : Attrs × List String) :
    List String → Except StyleErr (Attrs × List String)
  | [] => .ok acc
  | p :: rest =>
    match applyStylePart acc.1 acc.2 p with
    | .error e => .error e
    | .ok acc2 => applyParts acc2 rest

/-- `_parse_style_str(style_str)`: returns `(Attrs, class_names)`.  The start
attrs are `DEFAULT_ATTRS` when `'noinherit' in style_str` (a substring test),
else `_EMPTY_ATTRS`. -/
def _parse_style_str (style_str : String) : Except StyleErr (Attrs × List String) :=
  applyParts
    (if strIn "noinherit" style_str then DEFAULT_ATTRS else _EMPTY_ATTRS, [])
    (pySplit style_str)

/-! ## `Style` (style.py lines 103-177) -/

/-- The `Style` class: stores `class_names_and_attrs`, the ordered list of
`(sorted class-name tuple, Attrs)` pairs built by `__init__`. -/
structure Style where
  class_names_and_attrs : List (List String × Attrs)
deriving DecidableEq

/-- One iteration of the `Style.__init__` loop: canonicalize the class-name
string (`tuple(sorted(class_names.lower().split()))`), parse the style string,
and fail (`assert not class_names_2`) if it produced class references. -/
def styleRule (rule : String × String) : Except StyleErr (List String × Attrs) :=
  let class_names := pySorted (pySplit (pyLower rule.1))
  match _parse_style_str rule.2 with
  | .error e => .error e
  | .ok (attrs, class_names_2) =>
    if class_names_2 = [] then .ok (class_names, attrs)
    else .error .unexpectedClassReference

/-- The `Style.__init__` loop over the whole rule list, in order. -/
def rulesM : List (String × String) → Except StyleErr (List (List String × Attrs))
  | [] => .ok []
  | r :: rest =>
    match styleRule r with
    | .error e => .error e
    | .ok ca =>
      match rulesM rest with
      | .error e => .error e
      | .ok l => .ok (ca :: l)

/-- `Style(style_rules)`: construct a `Style`, failing if any rule is bad. -/
def mkStyle (style_rules : List (String × String)) : Except StyleErr Style :=
  match rulesM style_rules with
  | .error e => .error e
  | .ok l => .ok ⟨l⟩

/-- All nonempty subsequences of `l`, as produced by
`itertools.combinations(l, count)` for `count = 1 .. len(l)` (combinations pick
index subsets in increasing order, i.e. exactly the subsequences). -/
def pySublists : List String → List (List String)
  | [] => [[]]
  | x :: xs => pySublists xs ++ (pySublists xs).map (x :: ·)

/-- The `combos` set of `get_attrs_for_style_str`: the tuple `('',)` (added as
"the default") together with every nonempty combination of the queried class
names, in query-list order (the source does not sort the combination tuples). -/
def combosOf (class_names : List String) : List (List String) :=
  [""] :: (pySublists class_names).filter (fun c => !c.isEmpty)

/-- The `_or` helper of `_merge_attrs`: take the first not-`None` value,
scanning `values` from the end; `dflt` is the always-concrete value prepended
first in the source (`''` or `False`). -/
def _or {α : Type} (dflt : α) (values : List (Option α)) : α :=
  (values.reverse.findSome? id).getD dflt

/-- `_merge_attrs(list_of_attrs)`: per-field last-set-wins merge with concrete
defaults. -/
def _merge_attrs (list_of_attrs : List Attrs) : Attrs :=
  { color := some (_or "" (list_of_attrs.map (·.color))),
    bgcolor := some (_or "" (list_of_attrs.map (·.bgcolor))),
    bold := some (_or false (list_of_attrs.map (·.bold))),
    underline := some (_or false (list_of_attrs.map (·.underline))),
    italic := some (_or false (list_of_attrs.map (·.italic))),
    blink := some (_or false (list_of_attrs.map (·.blink))),
    reverse := some (_or false (list_of_attrs.map (·.reverse))) }

/-- `Style.get_attrs_for_style_str(style_str, default)`: parse the inline
string, enumerate combos, collect matching rules in order between the default
and the inline layer, and merge. -/
def Style.get_attrs_for_style_str (self : Style) (style_str : String)
    (default : Attrs) : Except StyleErr Attrs :=
  match _parse_style_str style_str with
  | .error e => .error e
  | .ok (inline_attrs, class_names) =>
    let combos := combosOf class_names
    let list_of_attrs :=
      default ::
        ((self.class_names_and_attrs.filter
            (fun ca => decide (ca.1 ∈ combos))).map Prod.snd ++ [inline_attrs])
    .ok (_merge_attrs list_of_attrs)

/-- Every field of `a` is concretely set (not Python `None`). -/
def allSet (a : Attrs) : Bool :=
  a.color.isSome && a.bgcolor.isSome && a.bold.isSome && a.underline.isSome &&
    a.italic.isSome && a.blink.isSome && a.reverse.isSome

/-! ## Spec-side definition for the merge (refinement target)

The spec describes the merge per field as: "scan the list from last to first
and take the first value that is not unset; if none found, the field defaults
to `false` / `\"\"`" — equivalently, a front-to-back scan keeping the latest
concrete value.  `specLast` is that description; `_or` is the source. -/

/-- The last concrete value of the list, else the default (spec's words). -/
def specLast {α : Type} (d : α) : List (Option α) → α
  | [] => d
  | none :: rest => specLast d rest
  | some v :: rest => specLast v rest

/-! ## Which tokens set which `Attrs` field

One predicate per field, mirroring the branches of the token loop: a token for
which the predicate is `false` can never change that field. -/

def touchesBold (t : String) : Bool :=
  decide (t = "bold") || decide (t = "nobold")

def touchesItalic (t : String) : Bool :=
  decide (t = "italic") || decide (t = "noitalic")

def touchesUnderline (t : String) : Bool :=
  decide (t = "underline") || decide (t = "nounderline")

def touchesBlink (t : String) : Bool :=
  decide (t = "blink") || decide (t = "noblink")

def touchesReverse (t : String) : Bool :=
  decide (t = "reverse") || decide (t = "noreverse")

def touchesBgcolor (t : String) : Bool :=
  pyStarts "bg:" t

/-- A token sets the foreground color exactly when it falls through every
earlier branch of the token loop to the final catch-all color branch. -/
def touchesColor (t : String) : Bool :=
  !decide (t = "noinherit") && !touchesBold t && !touchesItalic t &&
    !touchesUnderline t && !touchesBlink t && !touchesReverse t &&
    !decide (t = "roman" ∨ t = "sans" ∨ t = "mono") &&
    !pyStarts "border:" t && !pyStarts "class:" t &&
    !decide (pyStarts "[" t = true ∧ pyEnds "]" t = true) &&
    !pyStarts "bg:" t

/-! ## Helper lemmas -/

theorem dupThree_of_length_ne_three {cs : List Char} (h : cs.length ≠ 3) :
    dupThree cs = .error .invalidColorFormat := by
  rcases cs with _ | ⟨a, _ | ⟨b, _ | ⟨c, _ | ⟨d, l⟩⟩⟩⟩ <;> simp_all [dupThree]

theorem _or_eq_specLast {α : Type} (vals : List (Option α)) (d : α) :
    _or d vals = specLast d vals := by
  induction vals generalizing d with
  | nil => rfl
  | cons v rest ih =>
    cases v with
    | none =>
      show _or d (none :: rest) = specLast d rest
      rw [← ih d]
      simp only [_or, List.reverse_cons, List.findSome?_append]
      cases h : rest.reverse.findSome? id <;> simp [h, Option.orElse]
    | some v =>
      show _or d (some v :: rest) = specLast v rest
      rw [← ih v]
      simp only [_or, List.reverse_cons, List.findSome?_append]
      cases h : rest.reverse.findSome? id <;> simp [h, Option.orElse]

theorem _or_append_none {α : Type} (vals : List (Option α)) (d : α) :
    _or d (vals ++ [none]) = _or d vals := by
  simp [_or, List.reverse_append]

theorem _or_append_some {α : Type} (vals : List (Option α)) (d : α) (b : α) :
    _or d (vals ++ [some b]) = b := by
  simp [_or, List.reverse_append]

theorem allSet_set_color (a : Attrs) (s : String) (h : allSet a = true) :
    allSet { a with color := some s } = true := by
  obtain ⟨c, bg, bo, u, i, bl, rv⟩ := a; simp_all [allSet]

theorem allSet_set_bgcolor (a : Attrs) (s : String) (h : allSet a = true) :
    allSet { a with bgcolor := some s } = true := by
  obtain ⟨c, bg, bo, u, i, bl, rv⟩ := a; simp_all [allSet]

theorem allSet_set_bold (a : Attrs) (b : Bool) (h : allSet a = true) :
    allSet { a with bold := some b } = true := by
  obtain ⟨c, bg, bo, u, i, bl, rv⟩ := a; simp_all [allSet]

theorem allSet_set_underline (a : Attrs) (b : Bool) (h : allSet a = true) :
    allSet { a with underline := some b } = true := by
  obtain ⟨c, bg, bo, u, i, bl, rv⟩ := a; simp_all [allSet]

theorem allSet_set_italic (a : Attrs) (b : Bool) (h : allSet a = true) :
    allSet { a with italic := some b } = true := by
  obtain ⟨c, bg, bo, u, i, bl, rv⟩ := a; simp_all [allSet]

theorem allSet_set_blink (a : Attrs) (b : Bool) (h : allSet a = true) :
    allSet { a with blink := some b } = true := by
  obtain ⟨c, bg, bo, u, i, bl, rv⟩ := a; simp_all [allSet]

theorem allSet_set_reverse (a : Attrs) (b : Bool) (h : allSet a = true) :
    allSet { a with reverse := some b } = true := by
  obtain ⟨c, bg, bo, u, i, bl, rv⟩ := a; simp_all [allSet]

theorem applyStylePart_step (a : Attrs) (cns : List String) (t : String)
    (a2 : Attrs) (cns2 : List String)
    (h : applyStylePart a cns t = .ok (a2, cns2)) :
    (touchesColor t = false → a2.color = a.color) ∧
    (touchesBgcolor t = false → a2.bgcolor = a.bgcolor) ∧
    (touchesBold t = false → a2.bold = a.bold) ∧
    (touchesUnderline t = false → a2.underline = a.underline) ∧
    (touchesItalic t = false → a2.italic = a.italic) ∧
    (touchesBlink t = false → a2.blink = a.blink) ∧
    (touchesReverse t = false → a2.reverse = a.reverse) ∧
    (allSet a = true → allSet a2 = true) := by
  unfold applyStylePart at h
  by_cases h1 : t = "noinherit"
  · rw [if_pos h1] at h
    injection h with hp
    injection hp with hpa hpc
    subst hpa
    exact ⟨fun _ => rfl, fun _ => rfl, fun _ => rfl, fun _ => rfl, fun _ => rfl,
      fun _ => rfl, fun _ => rfl, fun ha => ha⟩
  rw [if_neg h1] at h
  by_cases hb1 : t = "bold"
  · subst hb1
    rw [if_pos rfl] at h
    injection h with hp
    injection hp with hpa hpc
    subst hpa
    exact ⟨fun _ => rfl, fun _ => rfl, fun hf => absurd hf (by decide),
      fun _ => rfl, fun _ => rfl, fun _ => rfl, fun _ => rfl,
      fun ha => allSet_set_bold a true ha⟩
  rw [if_neg hb1] at h
  by_cases hb2 : t = "nobold"
  · subst hb2
    rw [if_pos rfl] at h
    injection h with hp
    injection hp with hpa hpc
    subst hpa
    exact ⟨fun _ => rfl, fun _ => rfl, fun hf => absurd hf (by decide),
      fun _ => rfl, fun _ => rfl, fun _ => rfl, fun _ => rfl,
      fun ha => allSet_set_bold a false ha⟩
  rw [if_neg hb2] at h
  by_cases hi1 : t = "italic"
  · subst hi1
    rw [if_pos rfl] at h
    injection h with hp
    injection hp with hpa hpc
    subst hpa
    exact ⟨fun _ => rfl, fun _ => rfl, fun _ => rfl, fun _ => rfl,
      fun hf => absurd hf (by decide), fun _ => rfl, fun _ => rfl,
      fun ha => allSet_set_italic a true ha⟩
  rw [if_neg hi1] at h
  by_cases hi2 : t = "noitalic"
  · subst hi2
    rw [if_pos rfl] at h
    injection h with hp
    injection hp with hpa hpc
    subst hpa
    exact ⟨fun _ => rfl, fun _ => rfl, fun _ => rfl, fun _ => rfl,
      fun hf => absurd hf (by decide), fun _ => rfl, fun _ => rfl,
      fun ha => allSet_set_italic a false ha⟩
  rw [if_neg hi2] at h
  by_cases hu1 : t = "underline"
  · subst hu1
    rw [if_pos rfl] at h
    injection h with hp
    injection hp with hpa hpc
    subst hpa
    exact ⟨fun _ => rfl, fun _ => rfl, fun _ => rfl,
      fun hf => absurd hf (by decide), fun _ => rfl, fun _ => rfl, fun _ => rfl,
      fun ha => allSet_set_underline a true ha⟩
  rw [if_neg hu1] at h
  by_cases hu2 : t = "nounderline"
  · subst hu2
    rw [if_pos rfl] at h
    injection h with hp
    injection hp with hpa hpc
    subst hpa
    exact ⟨fun _ => rfl, fun _ => rfl, fun _ => rfl,
      fun hf => absurd hf (by decide), fun _ => rfl, fun _ => rfl, fun _ => rfl,
      fun ha => allSet_set_underline a false ha⟩
  rw [if_neg hu2] at h
  by_cases hk1 : t = "blink"
  · subst hk1
    rw [if_pos rfl] at h
    injection h with hp
    injection hp with hpa hpc
    subst hpa
    exact ⟨fun _ => rfl, fun _ => rfl, fun _ => rfl, fun _ => rfl, fun _ => rfl,
      fun hf => absurd hf (by decide), fun _ => rfl,
      fun ha => allSet_set_blink a true ha⟩
  rw [if_neg hk1] at h
  by_cases hk2 : t = "noblink"
  · subst hk2
    rw [if_pos rfl] at h
    injection h with hp
    injection hp with hpa hpc
    subst hpa
    exact ⟨fun _ => rfl, fun _ => rfl, fun _ => rfl, fun _ => rfl, fun _ => rfl,
      fun hf => absurd hf (by decide), fun _ => rfl,
      fun ha => allSet_set_blink a false ha⟩
  rw [if_neg hk2] at h
  by_cases hr1 : t = "reverse"
  · subst hr1
    rw [if_pos rfl] at h
    injection h with hp
    injection hp with hpa hpc
    subst hpa
    exact ⟨fun _ => rfl, fun _ => rfl, fun _ => rfl, fun _ => rfl, fun _ => rfl,
      fun _ => rfl, fun hf => absurd hf (by decide),
      fun ha => allSet_set_reverse a true ha⟩
  rw [if_neg hr1] at h
  by_cases hr2 : t = "noreverse"
  · subst hr2
    rw [if_pos rfl] at h
    injection h with hp
    injection hp with hpa hpc
    subst hpa
    exact ⟨fun _ => rfl, fun _ => rfl, fun _ => rfl, fun _ => rfl, fun _ => rfl,
      fun _ => rfl, fun hf => absurd hf (by decide),
      fun ha => allSet_set_reverse a false ha⟩
  rw [if_neg hr2] at h
  by_cases hrm : t = "roman" ∨ t = "sans" ∨ t = "mono"
  · rw [if_pos hrm] at h
    injection h with hp
    injection hp with hpa hpc
    subst hpa
    exact ⟨fun _ => rfl, fun _ => rfl, fun _ => rfl, fun _ => rfl, fun _ => rfl,
      fun _ => rfl, fun _ => rfl, fun ha => ha⟩
  rw [if_neg hrm] at h
  by_cases hbd : pyStarts "border:" t = true
  · rw [if_pos hbd] at h
    injection h with hp
    injection hp with hpa hpc
    subst hpa
    exact ⟨fun _ => rfl, fun _ => rfl, fun _ => rfl, fun _ => rfl, fun _ => rfl,
      fun _ => rfl, fun _ => rfl, fun ha => ha⟩
  rw [if_neg hbd] at h
  by_cases hcl : pyStarts "class:" t = true
  · rw [if_pos hcl] at h
    injection h with hp
    injection hp with hpa hpc
    subst hpa
    exact ⟨fun _ => rfl, fun _ => rfl, fun _ => rfl, fun _ => rfl, fun _ => rfl,
      fun _ => rfl, fun _ => rfl, fun ha => ha⟩
  rw [if_neg hcl] at h
  by_cases hbr : pyStarts "[" t = true ∧ pyEnds "]" t = true
  · rw [if_pos hbr] at h
    injection h with hp
    injection hp with hpa hpc
    subst hpa
    exact ⟨fun _ => rfl, fun _ => rfl, fun _ => rfl, fun _ => rfl, fun _ => rfl,
      fun _ => rfl, fun _ => rfl, fun ha => ha⟩
  rw [if_neg hbr] at h
  by_cases hbg : pyStarts "bg:" t = true
  · rw [if_pos hbg] at h
    cases hc : _colorformat (pyDrop 3 t) with
    | error e => rw [hc] at h; cases h
    | ok c =>
      rw [hc] at h
      injection h with hp
      injection hp with hpa hpc
      subst hpa
      refine ⟨fun _ => rfl, fun hf => ?_, fun _ => rfl, fun _ => rfl,
        fun _ => rfl, fun _ => rfl, fun _ => rfl,
        fun ha => allSet_set_bgcolor a c ha⟩
      simp only [touchesBgcolor] at hf
      rw [hf] at hbg
      cases hbg
  rw [if_neg hbg] at h
  cases hc : _colorformat t with
  | error e => rw [hc] at h; cases h
  | ok c =>
    rw [hc] at h
    injection h with hp
    injection hp with hpa hpc
    subst hpa
    refine ⟨fun hf => ?_, fun _ => rfl, fun _ => rfl, fun _ => rfl,
      fun _ => rfl, fun _ => rfl, fun _ => rfl,
      fun ha => allSet_set_color a c ha⟩
    have htc : touchesColor t = true := by
      simp [touchesColor, touchesBold, touchesItalic, touchesUnderline,
        touchesBlink, touchesReverse, h1, hb1, hb2, hi1, hi2, hu1, hu2,
        hk1, hk2, hr1, hr2, hrm, hbd, hcl, hbr, hbg]
    rw [htc] at hf
    cases hf

theorem applyParts_field {β : Type} (g : Attrs → Option β) (p : String → Bool)
    (hstep : ∀ a cns t a2 cns2,
      applyStylePart a cns t = .ok (a2, cns2) → p t = false → g a2 = g a) :
    ∀ (ts : List String) (a : Attrs) (cns : List String) (r : Attrs)
      (cns2 : List String),
      applyParts (a, cns) ts = .ok (r, cns2) →
      g r = g a ∨ ∃ t ∈ ts, p t = true := by
  intro ts
  induction ts with
  | nil =>
    intro a cns r cns2 h
    injection h with h'
    rw [show r = a from congrArg Prod.fst h'.symm]
    exact Or.inl rfl
  | cons t rest ih =>
    intro a cns r cns2 h
    unfold applyParts at h
    cases hs : applyStylePart a cns t with
    | error e => rw [hs] at h; cases h
    | ok acc2 =>
      obtain ⟨a', cns'⟩ := acc2
      rw [hs] at h
      rcases ih a' cns' r cns2 h with hg | ⟨u, hu, hpu⟩
      · cases hp : p t with
        | true => exact Or.inr ⟨t, List.mem_cons_self t rest, hp⟩
        | false => exact Or.inl (hg.trans (hstep a cns t a' cns' hs hp))
      · exact Or.inr ⟨u, List.mem_cons_of_mem t hu, hpu⟩

theorem applyParts_allSet :
    ∀ (ts : List String) (a : Attrs) (cns : List String) (r : Attrs)
      (cns2 : List String),
      applyParts (a, cns) ts = .ok (r, cns2) → allSet a = true →
      allSet r = true := by
  intro ts
  induction ts with
  | nil =>
    intro a cns r cns2 h ha
    injection h with h'
    rw [show r = a from congrArg Prod.fst h'.symm]
    exact ha
  | cons t rest ih =>
    intro a cns r cns2 h ha
    unfold applyParts at h
    cases hs : applyStylePart a cns t with
    | error e => rw [hs] at h; cases h
    | ok acc2 =>
      obtain ⟨a', cns'⟩ := acc2
      rw [hs] at h
      exact ih a' cns' r cns2 h
        ((applyStylePart_step a cns t a' cns' hs).2.2.2.2.2.2.2 ha)

/-! ## Claims -/

/-- C1: the spec claims rule matching is independent of the order in which the
query's class tokens are listed, because the query subsets are enumerated as
canonical sorted tuples.  The code does not sort the enumerated combination
tuples, so the stored (sorted) rule tuple `("a", "b")` matches the query
`class:a class:b` but not `class:b class:a`: matching is order-dependent. -/
theorem C1_matching_is_order_dependent :
    mkStyle [("a b", "bold")] =
      .ok ⟨[(["a", "b"], ⟨none, none, some true, none, none, none, none⟩)]⟩ ∧
    Style.get_attrs_for_style_str
        ⟨[(["a", "b"], ⟨none, none, some true, none, none, none, none⟩)]⟩
        "class:a class:b" _EMPTY_ATTRS =
      .ok ⟨some "", some "", some true, some false, some false, some false, some false⟩ ∧
    Style.get_attrs_for_style_str
        ⟨[(["a", "b"], ⟨none, none, some true, none, none, none, none⟩)]⟩
        "class:b class:a" _EMPTY_ATTRS =
      .ok ⟨some "", some "", some false, some false, some false, some false, some false⟩ ∧
    ["a", "b"] ∈ combosOf ["a", "b"] ∧ ["a", "b"] ∉ combosOf ["b", "a"] :=
  ⟨rfl, rfl, rfl, by decide, by decide⟩

/-- C2: the spec claims a rule whose class combination has zero tokens matches
every query.  The code stores the empty tuple `()` for such a rule, but the
combo set only ever contains the tuple `('',)` (added as "the default") and
nonempty combinations, so the zero-token rule never matches: querying the
stylesheet `[("", "bold")]` never applies the bold rule. -/
theorem C2_default_rule_never_matches :
    mkStyle [("", "bold")] =
      .ok ⟨[([], ⟨none, none, some true, none, none, none, none⟩)]⟩ ∧
    Style.get_attrs_for_style_str
        ⟨[([], ⟨none, none, some true, none, none, none, none⟩)]⟩ "" _EMPTY_ATTRS =
      .ok ⟨some "", some "", some false, some false, some false, some false, some false⟩ ∧
    Style.get_attrs_for_style_str
        ⟨[([], ⟨none, none, some true, none, none, none, none⟩)]⟩ "class:a" _EMPTY_ATTRS =
      .ok ⟨some "", some "", some false, some false, some false, some false, some false⟩ ∧
    [] ∉ combosOf [] ∧ [] ∉ combosOf ["a"] :=
  ⟨rfl, rfl, rfl, by decide, by decide⟩

/-- C3: per field, the merge yields the value of the last layer in which the
field is not unset, defaulting to `false` / `""` when every layer leaves it
unset (the `specLast` equations, for all seven fields); a trailing layer with a
field unset never overwrites the previously merged value of that field, while a
trailing layer with the field explicitly set always does; and merging
`[unset, true, unset]` for the bold field yields `true`. -/
theorem C3_merge_last_set_wins :
    (∀ l : List Attrs,
      (_merge_attrs l).color = some (specLast "" (l.map (·.color))) ∧
      (_merge_attrs l).bgcolor = some (specLast "" (l.map (·.bgcolor))) ∧
      (_merge_attrs l).bold = some (specLast false (l.map (·.bold))) ∧
      (_merge_attrs l).underline = some (specLast false (l.map (·.underline))) ∧
      (_merge_attrs l).italic = some (specLast false (l.map (·.italic))) ∧
      (_merge_attrs l).blink = some (specLast false (l.map (·.blink))) ∧
      (_merge_attrs l).reverse = some (specLast false (l.map (·.reverse)))) ∧
    (∀ (l : List Attrs) (c bg : Option String) (u i bl rv : Option Bool),
      (_merge_attrs (l ++ [⟨c, bg, none, u, i, bl, rv⟩])).bold =
        (_merge_attrs l).bold) ∧
    (∀ (l : List Attrs) (c bg : Option String) (b : Bool) (u i bl rv : Option Bool),
      (_merge_attrs (l ++ [⟨c, bg, some b, u, i, bl, rv⟩])).bold = some b) ∧
    (_merge_attrs [_EMPTY_ATTRS, ⟨none, none, some true, none, none, none, none⟩,
        _EMPTY_ATTRS]).bold = some true := by
  refine ⟨fun l => ?_, fun l c bg u i bl rv => ?_, fun l c bg b u i bl rv => ?_, by decide⟩
  · exact ⟨congrArg some (_or_eq_specLast ..), congrArg some (_or_eq_specLast ..),
      congrArg some (_or_eq_specLast ..), congrArg some (_or_eq_specLast ..),
      congrArg some (_or_eq_specLast ..), congrArg some (_or_eq_specLast ..),
      congrArg some (_or_eq_specLast ..)⟩
  · simp only [_merge_attrs, List.map_append, List.map_cons, List.map_nil]
    rw [_or_append_none]
  · simp only [_merge_attrs, List.map_append, List.map_cons, List.map_nil]
    rw [_or_append_some]

/-- C4: whenever `get_attrs_for_style_str` returns a result, every one of its
seven fields is concretely set (never Python `None`), for every stylesheet,
inline style string and default attribute value. -/
theorem C4_resolved_attrs_fully_set (st : Style) (s : String) (d r : Attrs)
    (h : st.get_attrs_for_style_str s d = .ok r) : allSet r = true := by
  unfold Style.get_attrs_for_style_str at h
  cases hp : _parse_style_str s with
  | error e => rw [hp] at h; cases h
  | ok pr =>
    obtain ⟨ia, cns⟩ := pr
    rw [hp] at h
    injection h with h'
    subst h'
    rfl

/-- Witness for C4 at a concrete stylesheet, style string and default. -/
theorem C4_resolved_attrs_fully_set_witness :
    allSet ⟨some "", some "", some false, some false, some false, some false,
      some false⟩ = true :=
  C4_resolved_attrs_fully_set ⟨[]⟩ "" _EMPTY_ATTRS _ rfl

/-- C7: with the stylesheet built from the empty rule list, resolving the empty
inline style string against a default in which all seven fields are concretely
set returns that default unchanged, field for field. -/
theorem C7_empty_style_empty_sheet_identity :
    mkStyle [] = .ok ⟨[]⟩ ∧
    ∀ d : Attrs, allSet d = true →
      Style.get_attrs_for_style_str ⟨[]⟩ "" d = .ok d := by
  refine ⟨rfl, fun d hd => ?_⟩
  obtain ⟨c, bg, b, u, i, bl, rv⟩ := d
  simp only [allSet, Bool.and_eq_true, Option.isSome_iff_exists] at hd
  obtain ⟨⟨⟨⟨⟨⟨⟨c', hc⟩, bg', hbg⟩, b', hb⟩, u', hu⟩, i', hi⟩, bl', hbl⟩, rv', hrv⟩ := hd
  subst hc hbg hb hu hi hbl hrv
  rfl

/-- Witness for C7 at a concrete fully-set default. -/
theorem C7_empty_style_empty_sheet_identity_witness :
    Style.get_attrs_for_style_str ⟨[]⟩ "" DEFAULT_ATTRS = .ok DEFAULT_ATTRS :=
  C7_empty_style_empty_sheet_identity.2 DEFAULT_ATTRS rfl

/-- C9: `_colorformat` succeeds exactly on: `#` + palette name, `#` + 6 chars,
`#` + 3 chars, the empty string, and `"default"`; every other input fails with
the invalid-color error.  In particular `"#12"` fails and `"#f80"` expands to
`"ff8800"` by doubling each character. -/
theorem C9_colorformat_validation :
    (∀ t : String,
      (¬ ((pyTake1 t = "#" ∧ (pyDrop 1 t ∈ ANSI_COLOR_NAMES ∨
              (pyDrop 1 t).data.length = 6 ∨ (pyDrop 1 t).data.length = 3)) ∨
            t = "" ∨ t = "default") →
        _colorformat t = .error .invalidColorFormat) ∧
      (((pyTake1 t = "#" ∧ (pyDrop 1 t ∈ ANSI_COLOR_NAMES ∨
              (pyDrop 1 t).data.length = 6 ∨ (pyDrop 1 t).data.length = 3)) ∨
            t = "" ∨ t = "default") →
        ∃ r, _colorformat t = .ok r)) ∧
    _colorformat "#12" = .error .invalidColorFormat ∧
    _colorformat "#f80" = .ok "ff8800" := by
  refine ⟨fun t => ⟨fun hno => ?_, fun hyes => ?_⟩, rfl, rfl⟩
  · by_cases h1 : pyTake1 t = "#"
    · have h2 : pyDrop 1 t ∉ ANSI_COLOR_NAMES := fun h => hno (.inl ⟨h1, .inl h⟩)
      have h3 : (pyDrop 1 t).data.length ≠ 6 := fun h => hno (.inl ⟨h1, .inr (.inl h)⟩)
      have h4 : (pyDrop 1 t).data.length ≠ 3 := fun h => hno (.inl ⟨h1, .inr (.inr h)⟩)
      simp only [_colorformat, if_pos h1, if_neg h2, if_neg h3]
      exact dupThree_of_length_ne_three h4
    · have h5 : ¬ (t = "" ∨ t = "default") := fun h => hno (.inr h)
      simp only [_colorformat, if_neg h1, if_neg h5]
  · rcases hyes with ⟨h1, hsh⟩ | h4
    · by_cases h2 : pyDrop 1 t ∈ ANSI_COLOR_NAMES
      · exact ⟨pyDrop 1 t, by simp only [_colorformat, if_pos h1, if_pos h2]⟩
      · rcases hsh with h2' | h3 | h3'
        · exact absurd h2' h2
        · exact ⟨pyDrop 1 t,
            by simp only [_colorformat, if_pos h1, if_neg h2, if_pos h3]⟩
        · have h6 : (pyDrop 1 t).data.length ≠ 6 := by omega
          obtain ⟨a, b, c, habc⟩ := List.length_eq_three.mp h3'
          refine ⟨⟨[a, a, b, b, c, c]⟩, ?_⟩
          simp [_colorformat, if_pos h1, if_neg h2, if_neg h6, habc, dupThree]
    · rcases h4 with h4 | h4 <;> subst h4 <;> exact ⟨_, rfl⟩

/-- Witness for C9's conditional parts at concrete inputs. -/
theorem C9_colorformat_validation_witness :
    _colorformat "##" = .error .invalidColorFormat ∧
    ∃ r, _colorformat "#abcdef" = .ok r :=
  ⟨((C9_colorformat_validation.1 "##").1 (by decide)),
   ((C9_colorformat_validation.1 "#abcdef").2 (by decide))⟩

/-- C10: any input of the form `#` followed by exactly six characters is
returned as that six-character remainder, with no validation that the
characters are hexadecimal digits; in particular `"#zzzzzz"` yields
`"zzzzzz"`. -/
theorem C10_six_chars_unvalidated :
    (∀ s : String, s.data.length = 6 → _colorformat ("#" ++ s) = .ok s) ∧
    _colorformat "#zzzzzz" = .ok "zzzzzz" := by
  refine ⟨fun s h => ?_, rfl⟩
  obtain ⟨cs⟩ := s
  have ht : pyTake1 ("#" ++ (⟨cs⟩ : String)) = "#" := rfl
  have hdrop : pyDrop 1 ("#" ++ (⟨cs⟩ : String)) = ⟨cs⟩ := rfl
  by_cases hm : (⟨cs⟩ : String) ∈ ANSI_COLOR_NAMES
  · simp only [_colorformat, if_pos ht, hdrop]
    rw [if_pos hm]
  · simp only [_colorformat, if_pos ht, hdrop]
    rw [if_neg hm, if_pos (show cs.length = 6 from h)]

/-- Witness for C10 at a concrete six-character remainder. -/
theorem C10_six_chars_unvalidated_witness :
    _colorformat ("#" ++ "qqqqqq") = .ok "qqqqqq" :=
  C10_six_chars_unvalidated.1 "qqqqqq" (by decide)

/-- Helper: a successful construction processes the rules pointwise, in order,
with no reordering, deduplication or merging. -/
theorem rulesM_forall2 :
    ∀ (rules : List (String × String)) (l : List (List String × Attrs)),
      rulesM rules = .ok l →
      List.Forall₂ (fun r ca => styleRule r = .ok ca) rules l := by
  intro rules
  induction rules with
  | nil =>
    intro l h
    injection h with h'
    subst h'
    exact List.Forall₂.nil
  | cons r rest ih =>
    intro l h
    unfold rulesM at h
    cases hr : styleRule r with
    | error e => rw [hr] at h; cases h
    | ok ca =>
      rw [hr] at h
      cases hrest : rulesM rest with
      | error e => rw [hrest] at h; cases h
      | ok tl =>
        rw [hrest] at h
        injection h with h'
        subst h'
        exact List.Forall₂.cons hr (ih tl hrest)

/-- C5: construction keeps the supplied rules in order, pointwise, with no
reordering, deduplication or merging of rules sharing a class combination
(the `Forall₂` part); and for the stylesheet `[("a", "bold"), ("a", "nobold")]`
both rules apply to the query `class:a` and the later one wins, yielding
`bold = false` (reversing the rule order yields `bold = true`, and two rules on
the same combination both contribute their fields). -/
theorem C5_rule_order_preserved :
    (∀ (rules : List (String × String)) (st : Style),
      mkStyle rules = .ok st →
      List.Forall₂ (fun r ca => styleRule r = .ok ca) rules
        st.class_names_and_attrs) ∧
    mkStyle [("a", "bold"), ("a", "nobold")] =
      .ok ⟨[(["a"], ⟨none, none, some true, none, none, none, none⟩),
            (["a"], ⟨none, none, some false, none, none, none, none⟩)]⟩ ∧
    Style.get_attrs_for_style_str
        ⟨[(["a"], ⟨none, none, some true, none, none, none, none⟩),
          (["a"], ⟨none, none, some false, none, none, none, none⟩)]⟩
        "class:a" _EMPTY_ATTRS =
      .ok ⟨some "", some "", some false, some false, some false, some false, some false⟩ ∧
    Style.get_attrs_for_style_str
        ⟨[(["a"], ⟨none, none, some false, none, none, none, none⟩),
          (["a"], ⟨none, none, some true, none, none, none, none⟩)]⟩
        "class:a" _EMPTY_ATTRS =
      .ok ⟨some "", some "", some true, some false, some false, some false, some false⟩ ∧
    Style.get_attrs_for_style_str
        ⟨[(["a"], ⟨none, none, none, none, some true, none, none⟩),
          (["a"], ⟨none, none, some true, none, none, none, none⟩)]⟩
        "class:a" _EMPTY_ATTRS =
      .ok ⟨some "", some "", some true, some false, some true, some false, some false⟩ := by
  refine ⟨fun rules st h => ?_, rfl, rfl, rfl, rfl⟩
  unfold mkStyle at h
  cases hr : rulesM rules with
  | error e => rw [hr] at h; cases h
  | ok l =>
    rw [hr] at h
    injection h with h'
    subst h'
    exact rulesM_forall2 rules l hr

/-- Witness for C5's pointwise part at a concrete rule list. -/
theorem C5_rule_order_preserved_witness :
    List.Forall₂ (fun r ca => styleRule r = .ok ca) [("a", "bold")]
      [(["a"], ⟨none, none, some true, none, none, none, none⟩)] :=
  C5_rule_order_preserved.1 [("a", "bold")]
    ⟨[(["a"], ⟨none, none, some true, none, none, none, none⟩)]⟩ rfl

/-- Helper: if every rule's style string parses and some rule's style string
produces class-name tokens, the construction loop fails with the
unexpected-class-reference error. -/
theorem rulesM_rejects_class_refs :
    ∀ rules : List (String × String),
      (∀ r ∈ rules, ∃ x, _parse_style_str r.2 = .ok x) →
      (∃ r ∈ rules, ∀ a cns, _parse_style_str r.2 = .ok (a, cns) → cns ≠ []) →
      rulesM rules = .error .unexpectedClassReference := by
  intro rules
  induction rules with
  | nil => rintro _ ⟨r, hr, -⟩; cases hr
  | cons r rest ih =>
    rintro hall ⟨w, hw, hwprop⟩
    obtain ⟨⟨a, cns⟩, hx⟩ := hall r (List.mem_cons_self r rest)
    by_cases hc : cns = []
    · have hwrest : w ∈ rest := by
        rcases List.mem_cons.mp hw with hwr | hwm
        · exact absurd hc (hwprop a cns (hwr ▸ hx))
        · exact hwm
      have htail := ih (fun r' hr' => hall r' (List.mem_cons_of_mem r hr'))
        ⟨w, hwrest, hwprop⟩
      simp [rulesM, styleRule, hx, hc, htail]
    · simp [rulesM, styleRule, hx, hc]

/-- C8: if every rule's style string parses cleanly (no color error) and some
rule's style string produces one or more `class:` tokens, construction fails
with the unexpected-class-reference error; in particular the rule list
`[("title", "class:foo bold")]` is rejected at construction time. -/
theorem C8_construction_rejects_class_refs :
    mkStyle [("title", "class:foo bold")] = .error .unexpectedClassReference ∧
    ∀ rules : List (String × String),
      (∀ r ∈ rules, ∃ x, _parse_style_str r.2 = .ok x) →
      (∃ r ∈ rules, ∀ a cns, _parse_style_str r.2 = .ok (a, cns) → cns ≠ []) →
      mkStyle rules = .error .unexpectedClassReference := by
  refine ⟨rfl, fun rules h1 h2 => ?_⟩
  unfold mkStyle
  rw [rulesM_rejects_class_refs rules h1 h2]

/-- Witness for C8's general part at a concrete rule list. -/
theorem C8_construction_rejects_class_refs_witness :
    mkStyle [("x", "class:y")] = .error .unexpectedClassReference :=
  C8_construction_rejects_class_refs.2 [("x", "class:y")]
    (by
      rintro r hr
      rcases List.mem_singleton.mp hr with rfl
      exact ⟨(_EMPTY_ATTRS, ["y"]), rfl⟩)
    ⟨("x", "class:y"), List.mem_singleton.mpr rfl, by
      intro a cns h
      rw [show _parse_style_str "class:y" = .ok (_EMPTY_ATTRS, ["y"]) from rfl] at h
      injection h with h'
      rw [show cns = ["y"] from congrArg Prod.snd h'.symm]
      simp⟩

/-- C6: counterexample to the claim that the parse starts from the all-false
override exactly when `noinherit` appears among the whitespace-separated
tokens.  The string `"class:noinherit"` has the single token
`"class:noinherit"` — `noinherit` is not among its tokens — yet the parse
starts from (and here returns) the all-false/empty `DEFAULT_ATTRS` instead of
the all-unset `_EMPTY_ATTRS`, because the source tests `'noinherit' in
style_str`, a substring test. -/
theorem C6_noinherit_token_counterexample :
    _parse_style_str "class:noinherit" = .ok (DEFAULT_ATTRS, ["noinherit"]) ∧
    pySplit "class:noinherit" = ["class:noinherit"] ∧
    "noinherit" ∉ pySplit "class:noinherit" ∧
    strIn "noinherit" "class:noinherit" = true ∧
    DEFAULT_ATTRS.bold = some false ∧ _EMPTY_ATTRS.bold = none :=
  ⟨rfl, rfl, by decide, rfl, rfl, rfl⟩

/-- C6 (amended): the parse starts from the all-false/empty override exactly
when `noinherit` occurs as a substring of the style string (Python's `in`),
not necessarily as a standalone token.  When the substring is present, every
field of the resulting override is concretely set; when it is absent, each
field of the result is unset unless some whitespace-separated token of the
string sets that field. -/
theorem C6_noinherit_substring_start (s : String) (r : Attrs)
    (cns : List String) (h : _parse_style_str s = .ok (r, cns)) :
    (strIn "noinherit" s = true → allSet r = true) ∧
    (strIn "noinherit" s = false →
      (r.color = none ∨ ∃ t ∈ pySplit s, touchesColor t = true) ∧
      (r.bgcolor = none ∨ ∃ t ∈ pySplit s, touchesBgcolor t = true) ∧
      (r.bold = none ∨ ∃ t ∈ pySplit s, touchesBold t = true) ∧
      (r.underline = none ∨ ∃ t ∈ pySplit s, touchesUnderline t = true) ∧
      (r.italic = none ∨ ∃ t ∈ pySplit s, touchesItalic t = true) ∧
      (r.blink = none ∨ ∃ t ∈ pySplit s, touchesBlink t = true) ∧
      (r.reverse = none ∨ ∃ t ∈ pySplit s, touchesReverse t = true)) := by
  unfold _parse_style_str at h
  constructor
  · intro hin
    rw [hin, if_pos rfl] at h
    exact applyParts_allSet (pySplit s) DEFAULT_ATTRS [] r cns h rfl
  · intro hout
    rw [hout] at h
    rw [if_neg (by simp)] at h
    refine ⟨?_, ?_, ?_, ?_, ?_, ?_, ?_⟩
    · exact applyParts_field (·.color) touchesColor
        (fun a c t a2 c2 hs hp => (applyStylePart_step a c t a2 c2 hs).1 hp)
        (pySplit s) _EMPTY_ATTRS [] r cns h
    · exact applyParts_field (·.bgcolor) touchesBgcolor
        (fun a c t a2 c2 hs hp => (applyStylePart_step a c t a2 c2 hs).2.1 hp)
        (pySplit s) _EMPTY_ATTRS [] r cns h
    · exact applyParts_field (·.bold) touchesBold
        (fun a c t a2 c2 hs hp => (applyStylePart_step a c t a2 c2 hs).2.2.1 hp)
        (pySplit s) _EMPTY_ATTRS [] r cns h
    · exact applyParts_field (·.underline) touchesUnderline
        (fun a c t a2 c2 hs hp => (applyStylePart_step a c t a2 c2 hs).2.2.2.1 hp)
        (pySplit s) _EMPTY_ATTRS [] r cns h
    · exact applyParts_field (·.italic) touchesItalic
        (fun a c t a2 c2 hs hp => (applyStylePart_step a c t a2 c2 hs).2.2.2.2.1 hp)
        (pySplit s) _EMPTY_ATTRS [] r cns h
    · exact applyParts_field (·.blink) touchesBlink
        (fun a c t a2 c2 hs hp => (applyStylePart_step a c t a2 c2 hs).2.2.2.2.2.1 hp)
        (pySplit s) _EMPTY_ATTRS [] r cns h
    · exact applyParts_field (·.reverse) touchesReverse
        (fun a c t a2 c2 hs hp => (applyStylePart_step a c t a2 c2 hs).2.2.2.2.2.2.1 hp)
        (pySplit s) _EMPTY_ATTRS [] r cns h

/-- Witness for C6's amended theorem at a concrete style string. -/
theorem C6_noinherit_substring_start_witness :
    allSet DEFAULT_ATTRS = true :=
  (C6_noinherit_substring_start "noinherit" DEFAULT_ATTRS [] rfl).1 rfl

end PromptToolkitStyle
